import Mathlib

/-!
Verification of the Command-Response Session Manager of a serial-port chat
bridge (src/main.py).  The definitions below are a shallow embedding of the
command-handling portion of the program: the response classifier, the
adaptive read loop, the decode/hex fallback, the configuration setter, the
live-message diffing update, the final dispatch to sinks, and the live-sink
registration maps.  Time is modelled in ticks of 100 ms (the poll interval),
so 2.0 s becomes 20 ticks, 5.0 s becomes 50 ticks and a timeout of 15 s
becomes 150 ticks.  Python built-ins are modelled by structurally recursive
Lean functions over the character list of a string.
-/

/-! ## Python string built-ins used by the program -/

/-- Models Python str.upper: per-character uppercasing (the AT command
vocabulary involved is ASCII). -/
def pyUpper (s : String) : String := String.mk (s.data.map Char.toUpper)

/-- Models the Python substring test `needle in hay`. -/
def strContains (hay needle : String) : Bool :=
  decide (needle.data <:+: hay.data)

/-- Models Python str.strip() with no argument: remove leading and trailing
whitespace. -/
def pyStripWs (s : String) : String :=
  String.mk (((s.data.dropWhile Char.isWhitespace).reverse.dropWhile
    Char.isWhitespace).reverse)

/-- Models Python str.strip(chars): remove leading and trailing characters
belonging to the character set `cs`. -/
def pyStripChars (s : String) (cs : List Char) : String :=
  String.mk (((s.data.dropWhile (· ∈ cs)).reverse.dropWhile (· ∈ cs)).reverse)

/-- Base-10 digit run to a natural number. -/
def digitsToNat (l : List Char) : Nat :=
  l.foldl (fun acc c => acc * 10 + (c.toNat - 48)) 0

/-- Models Python int(str): optional surrounding whitespace, optional sign,
then a non-empty base-10 digit run; anything else raises ValueError (None
here).  Digit-group underscores are not modelled. -/
def pythonInt (s : String) : Option Int :=
  let t := pyStripWs s
  let (neg, ds) :=
    match t.data with
    | '-' :: rest => (true, rest)
    | '+' :: rest => (false, rest)
    | l => (false, l)
  if ds ≠ [] ∧ ds.all Char.isDigit then
    some (if neg then -(digitsToNat ds : Int) else (digitsToNat ds : Int))
  else none

/-- Models Python float(str) on plain decimal literals: optional surrounding
whitespace, optional sign, digits with an optional single decimal point (at
least one digit overall).  Scientific notation, inf and nan are not
modelled; the result is the exact rational value. -/
def pythonFloat (s : String) : Option Rat :=
  let t := pyStripWs s
  let (neg, body) :=
    match t.data with
    | '-' :: rest => (true, rest)
    | '+' :: rest => (false, rest)
    | l => (false, l)
  let parts := (String.mk body).splitOn "."
  let signed : Rat → Rat := fun q => if neg then -q else q
  match parts with
  | [a] =>
    if a.data ≠ [] ∧ a.data.all Char.isDigit then
      some (signed (digitsToNat a.data : Rat))
    else none
  | [a, b] =>
    if (a.data ≠ [] ∨ b.data ≠ []) ∧ a.data.all Char.isDigit ∧
        b.data.all Char.isDigit then
      some (signed ((digitsToNat a.data : Rat) +
        (digitsToNat b.data : Rat) / ((10 : Rat) ^ b.data.length)))
    else none
  | _ => none

/-! ## Response classifier (src/main.py lines 274-281 and 347) -/

/-- Timeout selection, in seconds, from src/main.py lines 277-281.  The
command text is upper-cased (line 274) before the substring tests. -/
def timeoutFor (content : String) : Nat :=
  let command := pyUpper content
  if strContains command "CWJAP" then 45
  else if strContains command "CWLAP" then 20
  else 15

/-- The completion indicator lines of src/main.py lines 347 and 364. -/
def completionIndicators : List String := ["OK", "FAIL", "ERROR"]

/-- Membership test `response in ["OK", "FAIL", "ERROR"]` of line 347. -/
def isCompletionIndicator (response : String) : Bool :=
  completionIndicators.contains response

/-- Claim C2: the timeout of a session is a pure function of the upper-cased
command text: 45 s when it contains "CWJAP", otherwise 20 s when it contains
"CWLAP", otherwise 15 s. -/
theorem timeoutFor_spec (content : String) :
    (strContains (pyUpper content) "CWJAP" = true → timeoutFor content = 45) ∧
    (strContains (pyUpper content) "CWJAP" = false →
      strContains (pyUpper content) "CWLAP" = true → timeoutFor content = 20) ∧
    (strContains (pyUpper content) "CWJAP" = false →
      strContains (pyUpper content) "CWLAP" = false → timeoutFor content = 15) := by
  refine ⟨fun h => ?_, fun h h2 => ?_, fun h h2 => ?_⟩ <;>
    simp [timeoutFor, h] <;> simp [h2]

/-- Witness for claim C2 at three concrete commands. -/
theorem timeoutFor_spec_witness :
    timeoutFor "AT+CWJAP=\"ssid\",\"pw\"" = 45 ∧
    timeoutFor "at+cwlap" = 20 ∧
    timeoutFor "ATI" = 15 :=
  ⟨(timeoutFor_spec "AT+CWJAP=\"ssid\",\"pw\"").1 (by decide),
   (timeoutFor_spec "at+cwlap").2.1 (by decide) (by decide),
   (timeoutFor_spec "ATI").2.2 (by decide) (by decide)⟩

/-- Claim C3: a line is classified as a completion indicator exactly when the
line, after trimming, equals "OK", "FAIL" or "ERROR".  In the code the trim
happens at decode time (line 331), and the indicator test of line 347 is
plain membership of the trimmed line in the indicator list. -/
theorem isCompletionIndicator_spec (line : String) :
    isCompletionIndicator (pyStripWs line) = true ↔
      (pyStripWs line = "OK" ∨ pyStripWs line = "FAIL" ∨
        pyStripWs line = "ERROR") := by
  rw [isCompletionIndicator, List.elem_iff]
  simp [completionIndicators]

/-! ## Connection lifecycle: parameter setting (src/main.py lines 114-141) -/

/-- A value stored in the configuration dictionary. -/
inductive ConfigValue where
  | intV (n : Int)
  | floatV (q : Rat)
  | strV (s : String)
deriving DecidableEq, Repr

/-- DEFAULT_CONFIG of src/main.py lines 15-24. -/
def defaultConfig : List (String × ConfigValue) :=
  [("port", .strV "/dev/ttyUSB0"), ("baudrate", .intV 9600),
   ("bytesize", .intV 8), ("parity", .strV "N"), ("stopbits", .intV 1),
   ("timeout", .intV 1), ("encoding", .strV "utf-8"),
   ("encoding_errors", .strV "replace")]

/-- Dictionary key membership, `parameter in self.bot.config`. -/
def keyMem (cfg : List (String × ConfigValue)) (k : String) : Bool :=
  cfg.any (fun p => p.1 == k)

/-- Dictionary assignment on an existing key (`self.bot.config[parameter] =
value`, reached only when the key is present). -/
def setKey (cfg : List (String × ConfigValue)) (k : String) (v : ConfigValue) :
    List (String × ConfigValue) :=
  cfg.map (fun p => if p.1 == k then (k, v) else p)

/-- Dictionary lookup. -/
def getKey (cfg : List (String × ConfigValue)) (k : String) : Option ConfigValue :=
  (cfg.find? (fun p => p.1 == k)).map (·.2)

/-- The type coercion of src/main.py lines 129-135: baudrate and bytesize via
int(), stopbits via float(), every other parameter kept as the given
string.  None models the ValueError raised by an invalid coercion. -/
def coerceParam (parameter value : String) : Option ConfigValue :=
  if parameter == "baudrate" then (pythonInt value).map .intV
  else if parameter == "bytesize" then (pythonInt value).map .intV
  else if parameter == "stopbits" then (pythonFloat value).map .floatV
  else some (.strV value)

/-- The reply sent back by the set command. -/
inductive SetReply where
  | invalidParameter
  | invalidValueFormat (parameter : String)
  | setOk (parameter : String) (v : ConfigValue)
deriving DecidableEq, Repr

/-- Result of one set_parameter call: the configuration afterwards, whether
save_config ran, and the reply. -/
structure SetOutcome where
  config : List (String × ConfigValue)
  saved : Bool
  reply : SetReply
deriving DecidableEq, Repr

/-- SerialCog.set_parameter, src/main.py lines 114-141.  Unknown parameters
are rejected up front; a ValueError from the coercion is caught after no
mutation has happened, so the configuration is left unchanged; a successful
coercion stores the value and persists it via save_config. -/
def set_parameter (cfg : List (String × ConfigValue)) (parameter value : String) :
    SetOutcome :=
  if keyMem cfg parameter = false then
    { config := cfg, saved := false, reply := .invalidParameter }
  else
    match coerceParam parameter value with
    | none => { config := cfg, saved := false, reply := .invalidValueFormat parameter }
    | some v =>
      { config := setKey cfg parameter v, saved := true, reply := .setOk parameter v }

/-- Claim C7: set_parameter coerces by parameter name (baudrate and bytesize
to integer, stopbits to fractional number, other known parameters stay
strings); an invalid coercion reports an invalid-value error and leaves the
configuration unchanged and unsaved; a valid coercion stores the coerced
value and persists it. -/
theorem set_parameter_spec (cfg : List (String × ConfigValue)) (value : String) :
    (coerceParam "baudrate" value = (pythonInt value).map ConfigValue.intV ∧
     coerceParam "bytesize" value = (pythonInt value).map ConfigValue.intV ∧
     coerceParam "stopbits" value = (pythonFloat value).map ConfigValue.floatV ∧
     (∀ p : String, p ≠ "baudrate" → p ≠ "bytesize" → p ≠ "stopbits" →
        coerceParam p value = some (.strV value))) ∧
    (∀ p : String, keyMem cfg p = true → coerceParam p value = none →
      set_parameter cfg p value =
        { config := cfg, saved := false, reply := .invalidValueFormat p }) ∧
    (∀ p : String, ∀ v : ConfigValue, keyMem cfg p = true →
      coerceParam p value = some v →
      set_parameter cfg p value =
        { config := setKey cfg p v, saved := true, reply := .setOk p v }) := by
  refine ⟨⟨rfl, rfl, rfl, fun p h1 h2 h3 => ?_⟩,
    fun p hk hc => ?_, fun p v hk hc => ?_⟩
  · simp [coerceParam, h1, h2, h3]
  · simp [set_parameter, hk, hc]
  · simp [set_parameter, hk, hc]

/-- Witness for claim C7: setting baudrate to "9600" stores the integer 9600
and saves; setting baudrate to "fast" reports an invalid value and leaves
the default configuration untouched and unsaved; setting parity keeps the
string form. -/
theorem set_parameter_spec_witness :
    coerceParam "parity" "E" = some (.strV "E") ∧
    set_parameter defaultConfig "baudrate" "fast" =
      { config := defaultConfig, saved := false,
        reply := .invalidValueFormat "baudrate" } ∧
    set_parameter defaultConfig "baudrate" "9600" =
      { config := setKey defaultConfig "baudrate" (.intV 9600), saved := true,
        reply := .setOk "baudrate" (.intV 9600) } :=
  ⟨(set_parameter_spec defaultConfig "E").1.2.2.2 "parity"
      (by decide) (by decide) (by decide),
   (set_parameter_spec defaultConfig "fast").2.1 "baudrate"
      (by decide) (by decide),
   (set_parameter_spec defaultConfig "9600").2.2 "baudrate" (.intV 9600)
      (by decide) (by decide)⟩

/-! ## Live terminal message update (src/main.py lines 219-258) -/

/-- The character set of the Python call message.content.strip of the
argument holding three backticks and a newline: str.strip treats its
argument as a set of characters, here a backtick and a newline. -/
def liveStripSet : List Char := ['`', '\n']

/-- The code-block wrapping applied by the edit of line 246. -/
def terminalWrap (content : String) : String := "```\n" ++ content ++ "\n```"

/-- The initial live terminal message sent at line 215. -/
def initialLiveMessage : String := "```\nWaiting for output...\n```"

/-- The diff-and-edit core of SerialCog.update_live_terminal_message
(src/main.py lines 242-246): strip backticks and newlines from the current
message content, edit only when the result differs from the new content.
Returns whether an edit was issued and the message content afterwards. -/
def updateLiveMessage (stored content : String) : Bool × String :=
  if pyStripChars stored liveStripSet ≠ content then (true, terminalWrap content)
  else (false, stored)

/-- Auxiliary: dropWhile over a prefix whose members all satisfy the
predicate skips that prefix. -/
theorem dropWhile_append_of_all {α : Type} (p : α → Bool) (w l : List α)
    (h : ∀ a ∈ w, p a = true) : (w ++ l).dropWhile p = l.dropWhile p := by
  induction w with
  | nil => rfl
  | cons a w ih =>
    simp only [List.cons_append, List.dropWhile_cons,
      h a (List.mem_cons_self a w), if_true]
    exact ih (fun b hb => h b (List.mem_cons_of_mem a hb))


/-- Auxiliary: two-sided character-set strip of a wrapped list recovers the
core, when the wrapper characters all belong to the set and the core does
not start or end with a set character. -/
theorem stripWrap_list (cs w r l : List Char)
    (hw : ∀ a ∈ w, decide (a ∈ cs) = true)
    (hr : ∀ a ∈ r, decide (a ∈ cs) = true)
    (hh : ∀ x, l.head? = some x → decide (x ∈ cs) = false)
    (hl : ∀ x, l.getLast? = some x → decide (x ∈ cs) = false) :
    (((w ++ (l ++ r)).dropWhile (fun a => decide (a ∈ cs))).reverse.dropWhile
      (fun a => decide (a ∈ cs))).reverse = l := by
  rw [dropWhile_append_of_all _ w _ hw]
  cases l with
  | nil =>
    simp only [List.nil_append]
    have h1 : r.dropWhile (fun a => decide (a ∈ cs)) = [] :=
      List.dropWhile_eq_nil_iff.mpr hr
    simp [h1]
  | cons x t =>
    have hx := hh x rfl
    rw [List.cons_append, List.dropWhile_cons, hx]
    simp only [Bool.false_eq_true, if_false]
    rw [← List.cons_append, List.reverse_append,
      dropWhile_append_of_all _ r.reverse _
        (fun a ha => hr a (List.mem_reverse.mp ha))]
    have hrev : (x :: t).reverse.dropWhile (fun a => decide (a ∈ cs)) =
        (x :: t).reverse := by
      cases hr2 : (x :: t).reverse with
      | nil => rfl
      | cons y u =>
        have hy : decide (y ∈ cs) = false := by
          apply hl
          rw [← List.head?_reverse, hr2]; rfl
        rw [List.dropWhile_cons, hy]
        simp
    rw [hrev, List.reverse_reverse]

/-- Auxiliary: stripping the code-block wrapper recovers the content when
the content does not start or end with a backtick or a newline. -/
theorem pyStripChars_terminalWrap (c : String)
    (hh : ∀ x, c.data.head? = some x → decide (x ∈ liveStripSet) = false)
    (hl : ∀ x, c.data.getLast? = some x → decide (x ∈ liveStripSet) = false) :
    pyStripChars (terminalWrap c) liveStripSet = c := by
  apply String.ext
  have hdata : (terminalWrap c).data =
      ['`', '`', '`', '\n'] ++ (c.data ++ ['\n', '`', '`', '`']) := by
    simp [terminalWrap, String.data_append]
  show (((terminalWrap c).data.dropWhile _).reverse.dropWhile _).reverse = c.data
  rw [hdata]
  exact stripWrap_list liveStripSet _ _ c.data (by decide) (by decide) hh hl

/-- Claim C8 counterexample: rendering the identical content twice in a row
can issue two update calls.  The strip of the current message content uses a
character set, so a content ending in a backtick never compares equal to the
stripped form of its own wrapped rendering, and the second render edits
again. -/
theorem updateLiveMessage_counterexample :
    (updateLiveMessage initialLiveMessage "abc`").1 = true ∧
    (updateLiveMessage (updateLiveMessage initialLiveMessage "abc`").2
      "abc`").1 = true := by
  decide

/-- Claim C8 as amended: an edit is issued exactly when the new content
differs from the character-set-stripped current message content, and for
contents that do not start or end with a backtick or a newline, rendering
the same content twice in a row issues exactly one update call: the first
render edits, the second is suppressed by the diff. -/
theorem updateLiveMessage_amended (stored c : String)
    (hh : ∀ x, c.data.head? = some x → decide (x ∈ liveStripSet) = false)
    (hl : ∀ x, c.data.getLast? = some x → decide (x ∈ liveStripSet) = false)
    (hdiff : pyStripChars stored liveStripSet ≠ c) :
    (∀ s2 : String, (updateLiveMessage s2 c).1 = true ↔
      pyStripChars s2 liveStripSet ≠ c) ∧
    (updateLiveMessage stored c).1 = true ∧
    (updateLiveMessage (updateLiveMessage stored c).2 c).1 = false := by
  have hgen : ∀ s2 : String, (updateLiveMessage s2 c).1 = true ↔
      pyStripChars s2 liveStripSet ≠ c := by
    intro s2
    by_cases h : pyStripChars s2 liveStripSet = c
    · simp [updateLiveMessage, h]
    · simp [updateLiveMessage, h]
  refine ⟨hgen, (hgen stored).mpr hdiff, ?_⟩
  have h1 : (updateLiveMessage stored c).2 = terminalWrap c := by
    simp [updateLiveMessage, hdiff]
  rw [h1]
  simp [updateLiveMessage, pyStripChars_terminalWrap c hh hl]

/-- Witness for the amended claim C8: content "OK" rendered twice over the
initial live message issues exactly one edit. -/
theorem updateLiveMessage_amended_witness :
    (updateLiveMessage initialLiveMessage "OK").1 = true ∧
    (updateLiveMessage (updateLiveMessage initialLiveMessage "OK").2
      "OK").1 = false :=
  ⟨(updateLiveMessage_amended initialLiveMessage "OK" (by decide) (by decide)
      (by decide)).2.1,
   (updateLiveMessage_amended initialLiveMessage "OK" (by decide) (by decide)
      (by decide)).2.2⟩

/-! ## Session read loop (src/main.py lines 299-369)

Time is counted in ticks of 100 ms from the capture of start_time at line
302, so the poll sleep of line 359 advances the clock by one tick, the
2.0 s debounce of line 363 is 20 ticks, the 5.0 s grace of line 367 is 50
ticks and the 5.0 s status period of line 311 is 50 ticks.  The device is
modelled as a schedule of raw lines, each tagged with the tick from which
it is available; in_waiting is true when the next scheduled line has
arrived. -/

/-- Python negative-index slice buffer[-n:]: the last at most n elements. -/
def lastN {α : Type} (n : Nat) (l : List α) : List α := l.drop (l.length - n)

/-- One raw line as returned by readline: either its bytes decode under the
configured encoding and error policy to the given string, or decoding
raises UnicodeDecodeError and only the raw bytes are usable. -/
inductive RawLine where
  | decodable (s : String)
  | undecodable (bytes : List Nat)
deriving DecidableEq, Repr

/-- Models raw_response.decode(encoding, errors) of lines 328-331: either
the decoded text or the UnicodeDecodeError carrying the raw bytes. -/
def decodeLine : RawLine → Except (List Nat) String
  | .decodable s => .ok s
  | .undecodable bs => .error bs

/-- Models the Python format f-string of a byte as 02x: two lowercase hex
digits (bytes of a bytes object are always below 256). -/
def hexByte (b : Nat) : String :=
  String.mk [Nat.digitChar (b / 16 % 16), Nat.digitChar (b % 16)]

/-- The hex fallback line built at line 354. -/
def hexFallbackLine (bs : List Nat) : String :=
  "Raw hex data: " ++ String.intercalate " " (bs.map hexByte)

/-- A snapshot delivered to the live sink during the loop: the periodic
status update of lines 311-317 or the per-line incremental update of lines
339-342. -/
inductive LiveEvent where
  | statusUpdate (content : String)
  | dataUpdate (content : String)
deriving DecidableEq, Repr

/-- The mutable state of the read loop: the clock (ticks since start_time),
last_read_time, last_update_time, no_data_count, temp_buffer, and the
snapshots delivered to the live sink so far. -/
structure LoopState where
  now : Nat
  lastRead : Nat
  lastUpdate : Nat
  noDataCount : Nat
  buffer : List String
  events : List LiveEvent
deriving DecidableEq, Repr

/-- Loop state at line 307: clock zero, counters zero, empty buffer. -/
def initLoopState : LoopState :=
  { now := 0, lastRead := 0, lastUpdate := 0, noDataCount := 0,
    buffer := [], events := [] }

/-- Per-session constants: the original message text (compared against at
line 334), whether the channel has a live terminal, and the selected
timeout in ticks. -/
structure SessionCfg where
  commandText : String
  live : Bool
  timeoutTicks : Nat
deriving DecidableEq, Repr

/-- The status text of lines 312-315. -/
def statusText (current : Nat) (buffer : List String) : String :=
  "Command running for " ++ toString (current / 10) ++ "s...\n" ++
    (if buffer ≠ [] then String.intercalate "\n" (lastN 20 buffer) else "")

/-- The periodic status update of lines 311-317: when the channel is live
and at least 5 s passed since the last update, deliver a status snapshot
and remember the time. -/
def statusStep (cfg : SessionCfg) (current : Nat) (s : LoopState) : LoopState :=
  if cfg.live = true ∧ 50 ≤ current - s.lastUpdate then
    { s with events := s.events ++ [.statusUpdate (statusText current s.buffer)],
             lastUpdate := current }
  else s

/-- The effect of accepting one decoded response line (lines 335-344):
append it to temp_buffer and, when the channel is live, deliver an
incremental snapshot of the last at most 20 lines immediately and sleep
100 ms against rate limiting. -/
def acceptState (cfg : SessionCfg) (s : LoopState) (response : String) : LoopState :=
  let s1 := { s with buffer := s.buffer ++ [response] }
  if cfg.live = true then
    { s1 with
      events := s1.events ++
        [.dataUpdate (String.intercalate "\n" (lastN 20 s1.buffer))],
      now := s1.now + 1 }
  else s1

/-- The inner drain loop of lines 323-355 (while in_waiting: readline).
Processes scheduled lines that have arrived by the current clock; a decoded
line is stripped, empty lines and stray echoes of the command are
discarded, accepted lines go through acceptState, a completion indicator
sets no_data_count to 999 and breaks out, and a decode failure appends the
hex fallback line and continues.  Returns the state, the unread schedule
and whether the indicator break fired. -/
def drainAvailable (cfg : SessionCfg) :
    LoopState → List (Nat × RawLine) → LoopState × List (Nat × RawLine) × Bool
  | s, [] => (s, [], false)
  | s, (t, raw) :: rest =>
    if t ≤ s.now then
      match decodeLine raw with
      | .ok decoded =>
        let response := pyStripWs decoded
        if response ≠ "" ∧ response ≠ cfg.commandText then
          let s2 := acceptState cfg s response
          if isCompletionIndicator response then
            ({ s2 with noDataCount := 999 }, rest, true)
          else
            drainAvailable cfg s2 rest
        else
          drainAvailable cfg s rest
      | .error bs =>
        drainAvailable cfg { s with buffer := s.buffer ++ [hexFallbackLine bs] } rest
    else (s, (t, raw) :: rest, false)

/-- in_waiting at tick t: the next scheduled line has arrived. -/
def hasAvail (t : Nat) : List (Nat × RawLine) → Bool
  | [] => false
  | (a, _) :: _ => a ≤ t

/-- How the outer while loop of line 307 ended. -/
inductive ExitKind where
  | timedOut
  | earlyExit
deriving DecidableEq, Repr

/-- The outer read loop of lines 307-369, fuel-indexed.  Each iteration:
check the timeout, run the periodic status update, then either drain the
available lines (resetting no_data_count first and recording
last_read_time afterwards, lines 319-357) or sleep one tick and run the
idle bookkeeping of lines 358-369: the loop breaks early only when more
than 20 idle polls have passed, more than 2 s have passed since the last
read, and a completion indicator sits in the buffer; with no indicator and
more than 5 s of idleness the counter is reset and the loop keeps going.
None as exit kind means the fuel ran out before the loop ended.  The
in_waiting check and the idle conditions are written against s directly:
statusStep changes only the events and last_update_time fields, so the
clock, counter, last_read_time and buffer they read are those of s. -/
def loopRun (cfg : SessionCfg) :
    Nat → LoopState → List (Nat × RawLine) →
      LoopState × List (Nat × RawLine) × Option ExitKind
  | 0, s, inbox => (s, inbox, none)
  | fuel + 1, s, inbox =>
    if s.now < cfg.timeoutTicks then
      if hasAvail s.now inbox then
        loopRun cfg fuel
          { (drainAvailable cfg { statusStep cfg s.now s with noDataCount := 0 }
              inbox).1 with lastRead := s.now }
          (drainAvailable cfg { statusStep cfg s.now s with noDataCount := 0 }
              inbox).2.1
      else
        if 20 < s.noDataCount + 1 ∧ 20 < s.now - s.lastRead then
          if s.buffer.any isCompletionIndicator then
            ({ statusStep cfg s.now s with
                now := s.now + 1, noDataCount := s.noDataCount + 1 },
              inbox, some .earlyExit)
          else if 50 < s.now - s.lastRead then
            loopRun cfg fuel
              { statusStep cfg s.now s with now := s.now + 1, noDataCount := 0 }
              inbox
          else
            loopRun cfg fuel
              { statusStep cfg s.now s with
                  now := s.now + 1, noDataCount := s.noDataCount + 1 } inbox
        else
          loopRun cfg fuel
            { statusStep cfg s.now s with
                now := s.now + 1, noDataCount := s.noDataCount + 1 } inbox
    else (s, inbox, some .timedOut)

@[simp] theorem statusStep_now (cfg : SessionCfg) (c : Nat) (s : LoopState) :
    (statusStep cfg c s).now = s.now := by
  unfold statusStep; split <;> rfl

@[simp] theorem statusStep_lastRead (cfg : SessionCfg) (c : Nat) (s : LoopState) :
    (statusStep cfg c s).lastRead = s.lastRead := by
  unfold statusStep; split <;> rfl

@[simp] theorem statusStep_noDataCount (cfg : SessionCfg) (c : Nat) (s : LoopState) :
    (statusStep cfg c s).noDataCount = s.noDataCount := by
  unfold statusStep; split <;> rfl

@[simp] theorem statusStep_buffer (cfg : SessionCfg) (c : Nat) (s : LoopState) :
    (statusStep cfg c s).buffer = s.buffer := by
  unfold statusStep; split <;> rfl

@[simp] theorem acceptState_buffer (cfg : SessionCfg) (s : LoopState) (r : String) :
    (acceptState cfg s r).buffer = s.buffer ++ [r] := by
  unfold acceptState; split <;> rfl

theorem acceptState_now_le (cfg : SessionCfg) (s : LoopState) (r : String) :
    s.now ≤ (acceptState cfg s r).now := by
  unfold acceptState; split
  · exact Nat.le_succ s.now
  · exact Nat.le_refl s.now

theorem drainAvailable_now_le (cfg : SessionCfg) (inbox : List (Nat × RawLine)) :
    ∀ s : LoopState, s.now ≤ (drainAvailable cfg s inbox).1.now := by
  induction inbox with
  | nil => intro s; exact Nat.le_refl _
  | cons hd rest ih =>
    intro s
    obtain ⟨t, raw⟩ := hd
    rw [drainAvailable]
    split
    · cases raw with
      | decodable d =>
        simp only [decodeLine]
        split
        · split
          · exact acceptState_now_le cfg s _
          · exact Nat.le_trans (acceptState_now_le cfg s _) (ih _)
        · exact ih s
      | undecodable bs =>
        exact ih { s with buffer := s.buffer ++ [hexFallbackLine bs] }
    · exact Nat.le_refl _

theorem drainAvailable_rest_length_le (cfg : SessionCfg)
    (inbox : List (Nat × RawLine)) :
    ∀ s : LoopState, (drainAvailable cfg s inbox).2.1.length ≤ inbox.length := by
  induction inbox with
  | nil => intro s; exact Nat.le_refl _
  | cons hd rest ih =>
    intro s
    obtain ⟨t, raw⟩ := hd
    rw [drainAvailable]
    split
    · cases raw with
      | decodable d =>
        simp only [decodeLine]
        split
        · split
          · exact Nat.le_succ _
          · exact Nat.le_trans (ih _) (Nat.le_succ _)
        · exact Nat.le_trans (ih _) (Nat.le_succ _)
      | undecodable bs => exact Nat.le_trans (ih _) (Nat.le_succ _)
    · exact Nat.le_refl _

theorem drainAvailable_progress (cfg : SessionCfg) (s : LoopState)
    (inbox : List (Nat × RawLine)) (h : hasAvail s.now inbox = true) :
    (drainAvailable cfg s inbox).2.1.length < inbox.length := by
  cases inbox with
  | nil => simp [hasAvail] at h
  | cons hd rest =>
    obtain ⟨t, raw⟩ := hd
    have ht : t ≤ s.now := by simpa [hasAvail] using h
    rw [drainAvailable]
    rw [if_pos ht]
    cases raw with
    | decodable d =>
      simp only [decodeLine]
      split
      · split
        · exact Nat.lt_succ_of_le (Nat.le_refl _)
        · exact Nat.lt_succ_of_le (drainAvailable_rest_length_le cfg rest _)
      · exact Nat.lt_succ_of_le (drainAvailable_rest_length_le cfg rest _)
    | undecodable bs =>
      exact Nat.lt_succ_of_le (drainAvailable_rest_length_le cfg rest _)

theorem drainAvailable_buffer_extend (cfg : SessionCfg)
    (inbox : List (Nat × RawLine)) :
    ∀ s : LoopState, ∃ tl, (drainAvailable cfg s inbox).1.buffer = s.buffer ++ tl := by
  induction inbox with
  | nil => intro s; exact ⟨[], (List.append_nil s.buffer).symm⟩
  | cons hd rest ih =>
    intro s
    obtain ⟨t, raw⟩ := hd
    rw [drainAvailable]
    split
    · cases raw with
      | decodable d =>
        simp only [decodeLine]
        split
        · split
          · exact ⟨[pyStripWs d], by simp⟩
          · obtain ⟨tl, htl⟩ := ih (acceptState cfg s (pyStripWs d))
            exact ⟨[pyStripWs d] ++ tl, by simp [htl]⟩
        · exact ih s
      | undecodable bs =>
        obtain ⟨tl, htl⟩ := ih { s with buffer := s.buffer ++ [hexFallbackLine bs] }
        exact ⟨[hexFallbackLine bs] ++ tl, by simpa using htl⟩
    · exact ⟨[], (List.append_nil s.buffer).symm⟩


theorem loopRun_buffer_extend (cfg : SessionCfg) (fuel : Nat) :
    ∀ (s : LoopState) (inbox : List (Nat × RawLine)),
      ∃ tl, (loopRun cfg fuel s inbox).1.buffer = s.buffer ++ tl := by
  induction fuel with
  | zero => intro s inbox; exact ⟨[], (List.append_nil s.buffer).symm⟩
  | succ n ih =>
    intro s inbox
    rw [loopRun]
    split
    · split
      · obtain ⟨tl1, h1⟩ := drainAvailable_buffer_extend cfg inbox
          { statusStep cfg s.now s with noDataCount := 0 }
        obtain ⟨tl2, h2⟩ := ih
          { (drainAvailable cfg { statusStep cfg s.now s with noDataCount := 0 }
              inbox).1 with lastRead := s.now }
          (drainAvailable cfg { statusStep cfg s.now s with noDataCount := 0 }
              inbox).2.1
        refine ⟨tl1 ++ tl2, ?_⟩
        rw [h2]
        show (drainAvailable cfg { statusStep cfg s.now s with noDataCount := 0 }
            inbox).1.buffer ++ tl2 = s.buffer ++ (tl1 ++ tl2)
        rw [h1]
        simp
      · split
        · split
          · exact ⟨[], by simp⟩
          · split
            · obtain ⟨tl, h⟩ := ih _ inbox
              exact ⟨tl, by simpa using h⟩
            · obtain ⟨tl, h⟩ := ih _ inbox
              exact ⟨tl, by simpa using h⟩
        · obtain ⟨tl, h⟩ := ih _ inbox
          exact ⟨tl, by simpa using h⟩
    · exact ⟨[], (List.append_nil s.buffer).symm⟩

theorem loopRun_earlyExit_inv (cfg : SessionCfg) (fuel : Nat) :
    ∀ (s : LoopState) (inbox : List (Nat × RawLine)) (s' : LoopState)
      (inbox' : List (Nat × RawLine)),
      loopRun cfg fuel s inbox = (s', inbox', some .earlyExit) →
      s'.buffer.any isCompletionIndicator = true ∧ 20 < s'.noDataCount ∧
        20 < (s'.now - 1) - s'.lastRead := by
  induction fuel with
  | zero => intro s inbox s' inbox' h; simp [loopRun] at h
  | succ n ih =>
    intro s inbox s' inbox' h
    rw [loopRun] at h
    split at h
    · split at h
      · exact ih _ _ _ _ h
      · split at h
        · split at h
          · rename_i hlt hnd hcond hind
            cases h
            refine ⟨by simpa using hind, by simpa using hcond.1, ?_⟩
            simpa using hcond.2
          · split at h
            · exact ih _ _ _ _ h
            · exact ih _ _ _ _ h
        · exact ih _ _ _ _ h
    · simp at h

theorem loopRun_fuel_sufficient (cfg : SessionCfg) (fuel : Nat) :
    ∀ (s : LoopState) (inbox : List (Nat × RawLine)),
      cfg.timeoutTicks - s.now + inbox.length < fuel →
      (loopRun cfg fuel s inbox).2.2 ≠ none := by
  induction fuel with
  | zero => intro s inbox h; exact absurd h (Nat.not_lt_zero _)
  | succ n ih =>
    intro s inbox h
    rw [loopRun]
    split
    · rename_i hlt
      split
      · rename_i hav
        apply ih
        have hnow : s.now ≤ (drainAvailable cfg
            { statusStep cfg s.now s with noDataCount := 0 } inbox).1.now := by
          have := drainAvailable_now_le cfg inbox
            { statusStep cfg s.now s with noDataCount := 0 }
          simpa using this
        have hlen : (drainAvailable cfg
            { statusStep cfg s.now s with noDataCount := 0 } inbox).2.1.length <
            inbox.length := by
          apply drainAvailable_progress
          simpa using hav
        have hsub : cfg.timeoutTicks - (drainAvailable cfg
            { statusStep cfg s.now s with noDataCount := 0 } inbox).1.now ≤
            cfg.timeoutTicks - s.now := Nat.sub_le_sub_left hnow _
        have hstep : cfg.timeoutTicks - (drainAvailable cfg
              { statusStep cfg s.now s with noDataCount := 0 } inbox).1.now +
              (drainAvailable cfg
                { statusStep cfg s.now s with noDataCount := 0 } inbox).2.1.length <
            cfg.timeoutTicks - s.now + inbox.length :=
          Nat.add_lt_add_of_le_of_lt hsub hlen
        calc cfg.timeoutTicks - ({ (drainAvailable cfg
                { statusStep cfg s.now s with noDataCount := 0 } inbox).1 with
                lastRead := s.now } : LoopState).now +
              (drainAvailable cfg
                { statusStep cfg s.now s with noDataCount := 0 } inbox).2.1.length
            < cfg.timeoutTicks - s.now + inbox.length := hstep
          _ ≤ n := Nat.lt_succ_iff.mp h
      · have hmeas : cfg.timeoutTicks - (s.now + 1) + inbox.length < n := by
          have h1 := Nat.lt_succ_iff.mp h
          omega
        split
        · split
          · simp
          · split
            · exact ih _ _ (by simpa using hmeas)
            · exact ih _ _ (by simpa using hmeas)
        · exact ih _ _ (by simpa using hmeas)
    · simp

theorem loopRun_timedOut_now (cfg : SessionCfg) (fuel : Nat) :
    ∀ (s : LoopState) (inbox : List (Nat × RawLine)) (s' : LoopState)
      (inbox' : List (Nat × RawLine)),
      loopRun cfg fuel s inbox = (s', inbox', some .timedOut) →
      cfg.timeoutTicks ≤ s'.now := by
  induction fuel with
  | zero => intro s inbox s' inbox' h; simp [loopRun] at h
  | succ n ih =>
    intro s inbox s' inbox' h
    rw [loopRun] at h
    split at h
    · split at h
      · exact ih _ _ _ _ h
      · split at h
        · split at h
          · simp at h
          · split at h
            · exact ih _ _ _ _ h
            · exact ih _ _ _ _ h
        · exact ih _ _ _ _ h
    · rename_i hge
      cases h
      exact Nat.le_of_not_lt hge

/-- Session configuration of a plain-terminal channel with the default 15 s
timeout. -/
def sessionCfgPlain : SessionCfg :=
  { commandText := "AT", live := false, timeoutTicks := 150 }

/-- Session configuration with an artificially short timeout of 0.2 s. -/
def sessionCfgShort : SessionCfg :=
  { commandText := "AT", live := false, timeoutTicks := 2 }

/-- Session configuration of a live-terminal channel. -/
def sessionCfgLive : SessionCfg :=
  { commandText := "AT", live := true, timeoutTicks := 150 }

/-- A loop state deep into a long idle stretch with no completion indicator
in the buffer. -/
def idleProbeState : LoopState :=
  { now := 60, lastRead := 0, lastUpdate := 0, noDataCount := 30,
    buffer := ["+IPD,4"], events := [] }

/-- Claim C4: the read loop exits before the full timeout only when a
completion indicator has been accumulated, more than 20 idle polls have
passed and the transport has been idle for more than 2 s (20 ticks) since
the last read; when no completion indicator is ever accumulated the loop
never exits early but runs to the full timeout; and an idle stretch beyond
5 s (50 ticks) without an indicator resets the idle counter and continues
the loop. -/
theorem loopRun_exit_spec (cfg : SessionCfg) (fuel : Nat) (s : LoopState)
    (inbox : List (Nat × RawLine)) (s' : LoopState)
    (inbox' : List (Nat × RawLine)) :
    (loopRun cfg fuel s inbox = (s', inbox', some .earlyExit) →
      s'.buffer.any isCompletionIndicator = true ∧ 20 < s'.noDataCount ∧
        20 < (s'.now - 1) - s'.lastRead) ∧
    ((loopRun cfg fuel s inbox).1.buffer.any isCompletionIndicator = false →
      cfg.timeoutTicks - s.now + inbox.length < fuel →
      (loopRun cfg fuel s inbox).2.2 = some .timedOut ∧
        cfg.timeoutTicks ≤ (loopRun cfg fuel s inbox).1.now) ∧
    (hasAvail s.now inbox = false → s.now < cfg.timeoutTicks →
      20 < s.noDataCount + 1 → 20 < s.now - s.lastRead →
      s.buffer.any isCompletionIndicator = false → 50 < s.now - s.lastRead →
      loopRun cfg (fuel + 1) s inbox =
        loopRun cfg fuel
          { statusStep cfg s.now s with now := s.now + 1, noDataCount := 0 }
          inbox) := by
  refine ⟨loopRun_earlyExit_inv cfg fuel s inbox s' inbox',
    fun hind hfuel => ?_, fun h1 h2 h3 h4 h5 h6 => ?_⟩
  · rcases hr : loopRun cfg fuel s inbox with ⟨s2, inbox2, r⟩
    cases r with
    | none =>
      have hne := loopRun_fuel_sufficient cfg fuel s inbox hfuel
      rw [hr] at hne
      exact absurd rfl hne
    | some k =>
      cases k with
      | earlyExit =>
        have h2 := (loopRun_earlyExit_inv cfg fuel s inbox s2 inbox2 hr).1
        rw [hr] at hind
        have hind2 : s2.buffer.any isCompletionIndicator = false := hind
        rw [h2] at hind2
        exact absurd hind2 (by simp)
      | timedOut =>
        exact ⟨rfl, loopRun_timedOut_now cfg fuel s inbox s2 inbox2 hr⟩
  · conv_lhs => rw [loopRun]
    rw [if_pos h2, if_neg (by simp [h1]), if_pos ⟨h3, h4⟩,
      if_neg (by simp [h5]), if_pos h6]

/-- Witness for claim C4: a session receiving one "OK" line exits early at
2.2 s with the indicator accumulated after 21 continuous idle ticks; a
session receiving nothing never exits early and runs to its full timeout;
a state 6 s idle without an indicator resets its counter and continues. -/
theorem loopRun_exit_spec_witness :
    ((["OK"] : List String).any isCompletionIndicator = true ∧
      (20 : Nat) < 1021 ∧ (20 : Nat) < (22 - 1) - 0) ∧
    ((loopRun sessionCfgShort 5 initLoopState []).2.2 = some .timedOut ∧
      sessionCfgShort.timeoutTicks ≤ (loopRun sessionCfgShort 5 initLoopState []).1.now) ∧
    loopRun sessionCfgPlain 11 idleProbeState [] =
      loopRun sessionCfgPlain 10
        { statusStep sessionCfgPlain idleProbeState.now idleProbeState with
            now := idleProbeState.now + 1, noDataCount := 0 } [] :=
  ⟨(loopRun_exit_spec sessionCfgPlain 30 initLoopState [(0, .decodable "OK")]
      { now := 22, lastRead := 0, lastUpdate := 0, noDataCount := 1021,
        buffer := ["OK"], events := [] } []).1 (by decide),
   (loopRun_exit_spec sessionCfgShort 5 initLoopState [] initLoopState []).2.1
      (by decide) (by decide),
   (loopRun_exit_spec sessionCfgPlain 10 idleProbeState [] initLoopState []).2.2
      (by decide) (by decide) (by decide) (by decide) (by decide) (by decide)⟩

/-- Claim C5 counterexample: a hex-fallback line from a decode failure is
appended to the accumulated lines but no incremental snapshot is delivered
to the live sink (the live update of lines 337-344 sits inside the decoded
branch only; the except branch of lines 352-355 merely appends). -/
theorem drainAvailable_hex_no_snapshot :
    (drainAvailable sessionCfgLive initLoopState
      [(0, .undecodable [255])]).1.buffer = ["Raw hex data: ff"] ∧
    (drainAvailable sessionCfgLive initLoopState
      [(0, .undecodable [255])]).1.events = [] := by
  decide

/-- Claim C5 as amended: an accepted decoded line (non-empty after the
strip and different from the command text) is appended to the accumulated
lines and, on a live channel, an incremental snapshot of the last at most
20 lines is delivered immediately, before any further line of the same
drain pass is processed; a decoded line equal to the command text is
discarded; a hex-fallback line is appended without an immediate
snapshot. -/
theorem drainAvailable_line_spec (cfg : SessionCfg) (s : LoopState) (t : Nat)
    (raw : RawLine) (rest : List (Nat × RawLine))
    (ht : t ≤ s.now) (hlive : cfg.live = true) :
    (∀ response : String,
      (acceptState cfg s response).buffer = s.buffer ++ [response] ∧
      (acceptState cfg s response).events = s.events ++
        [LiveEvent.dataUpdate
          (String.intercalate "\n" (lastN 20 (s.buffer ++ [response])))]) ∧
    (∀ decoded : String, decodeLine raw = .ok decoded →
      pyStripWs decoded ≠ "" → pyStripWs decoded ≠ cfg.commandText →
      ((isCompletionIndicator (pyStripWs decoded) = true →
          drainAvailable cfg s ((t, raw) :: rest) =
            ({ acceptState cfg s (pyStripWs decoded) with noDataCount := 999 },
              rest, true)) ∧
        (isCompletionIndicator (pyStripWs decoded) = false →
          drainAvailable cfg s ((t, raw) :: rest) =
            drainAvailable cfg (acceptState cfg s (pyStripWs decoded)) rest))) ∧
    (∀ decoded : String, decodeLine raw = .ok decoded →
      (pyStripWs decoded = "" ∨ pyStripWs decoded = cfg.commandText) →
      drainAvailable cfg s ((t, raw) :: rest) = drainAvailable cfg s rest) ∧
    (∀ bs : List Nat, decodeLine raw = .error bs →
      drainAvailable cfg s ((t, raw) :: rest) =
        drainAvailable cfg { s with buffer := s.buffer ++ [hexFallbackLine bs] }
          rest ∧
      ({ s with buffer := s.buffer ++ [hexFallbackLine bs] } : LoopState).events =
        s.events) := by
  refine ⟨fun response => ?_, fun decoded hdec hne hecho => ⟨fun hind => ?_, fun hind => ?_⟩,
    fun decoded hdec hor => ?_, fun bs hdec => ⟨?_, rfl⟩⟩
  · constructor
    · simp [acceptState, hlive]
    · simp [acceptState, hlive]
  · rw [drainAvailable, if_pos ht, hdec]
    simp only []
    rw [if_pos ⟨hne, hecho⟩, if_pos hind]
  · rw [drainAvailable, if_pos ht, hdec]
    simp only []
    rw [if_pos ⟨hne, hecho⟩, if_neg (by simp [hind])]
  · rw [drainAvailable, if_pos ht, hdec]
    simp only []
    rw [if_neg (by rcases hor with h | h <;> simp [h])]
  · rw [drainAvailable, if_pos ht, hdec]

/-- Witness for the amended claim C5 on a live channel: an accepted line is
appended with an immediate snapshot; an "OK" line breaks the drain with the
counter forced; a stray echo of the command is discarded; a hex-fallback
line is appended without an immediate snapshot. -/
theorem drainAvailable_line_spec_witness :
    ((acceptState sessionCfgLive initLoopState "ready").buffer = ["ready"] ∧
      (acceptState sessionCfgLive initLoopState "ready").events =
        [LiveEvent.dataUpdate "ready"]) ∧
    drainAvailable sessionCfgLive initLoopState [(0, .decodable "OK")] =
      ({ acceptState sessionCfgLive initLoopState "OK" with noDataCount := 999 },
        [], true) ∧
    drainAvailable sessionCfgLive initLoopState [(0, .decodable "AT")] =
      drainAvailable sessionCfgLive initLoopState [] ∧
    drainAvailable sessionCfgLive initLoopState [(0, .undecodable [255])] =
      drainAvailable sessionCfgLive
        { initLoopState with buffer := [hexFallbackLine [255]] } [] :=
  ⟨(drainAvailable_line_spec sessionCfgLive initLoopState 0 (.decodable "ready")
      [] (by decide) rfl).1 "ready",
   ((drainAvailable_line_spec sessionCfgLive initLoopState 0 (.decodable "OK")
      [] (by decide) rfl).2.1 "OK" rfl (by decide) (by decide)).1 (by decide),
   (drainAvailable_line_spec sessionCfgLive initLoopState 0 (.decodable "AT")
      [] (by decide) rfl).2.2.1 "AT" rfl (Or.inr (by decide)),
   ((drainAvailable_line_spec sessionCfgLive initLoopState 0 (.undecodable [255])
      [] (by decide) rfl).2.2.2 [255] rfl).1⟩

/-- Auxiliary: Nat.digitChar of a value below 16 is a lowercase hex
digit. -/
theorem hexDigitChar_mem : ∀ n, n < 16 →
    Nat.digitChar n ∈ ("0123456789abcdef").data := by
  decide

/-- Claim C6: a raw line whose bytes fail to decode is turned into the
buffered line "Raw hex data: " followed by the space-separated two-digit
lowercase hex rendering of the raw bytes; the drain continues with the
remaining lines and the session is not aborted. -/
theorem drainAvailable_decodeFailure_spec (cfg : SessionCfg) (s : LoopState)
    (t : Nat) (raw : RawLine) (rest : List (Nat × RawLine)) (bs : List Nat)
    (ht : t ≤ s.now) (hdec : decodeLine raw = .error bs)
    (hb : ∀ b ∈ bs, b < 256) :
    (drainAvailable cfg s ((t, raw) :: rest) =
      drainAvailable cfg { s with buffer := s.buffer ++ [hexFallbackLine bs] }
        rest) ∧
    hexFallbackLine bs =
      "Raw hex data: " ++ String.intercalate " " (bs.map hexByte) ∧
    (∀ b ∈ bs, (hexByte b).data.length = 2 ∧
      ∀ c ∈ (hexByte b).data, c ∈ ("0123456789abcdef").data) := by
  refine ⟨?_, rfl, fun b hbm => ⟨rfl, fun c hc => ?_⟩⟩
  · rw [drainAvailable, if_pos ht, hdec]
  · have h1 : b / 16 % 16 < 16 := Nat.mod_lt _ (by norm_num)
    have h2 : b % 16 < 16 := Nat.mod_lt _ (by norm_num)
    have hc2 : c = Nat.digitChar (b / 16 % 16) ∨ c = Nat.digitChar (b % 16) := by
      simpa [hexByte] using hc
    rcases hc2 with rfl | rfl
    · exact hexDigitChar_mem _ h1
    · exact hexDigitChar_mem _ h2

/-- Witness for claim C6 at the byte sequence 0, 255. -/
theorem drainAvailable_decodeFailure_spec_witness :
    (drainAvailable sessionCfgPlain initLoopState [(0, .undecodable [0, 255])] =
      drainAvailable sessionCfgPlain
        { initLoopState with
            buffer := initLoopState.buffer ++ [hexFallbackLine [0, 255]] } []) ∧
    ((hexByte 255).data.length = 2 ∧
      ∀ c ∈ (hexByte 255).data, c ∈ ("0123456789abcdef").data) :=
  ⟨(drainAvailable_decodeFailure_spec sessionCfgPlain initLoopState 0
      (.undecodable [0, 255]) [] [0, 255] (by decide) rfl (by decide)).1,
   (drainAvailable_decodeFailure_spec sessionCfgPlain initLoopState 0
      (.undecodable [0, 255]) [] [0, 255] (by decide) rfl (by decide)).2.2 255
      (by decide)⟩

/-! ## Final dispatch to sinks (src/main.py lines 371-401) -/

/-- An outbound delivery: a fresh message to a plain-terminal channel or an
edit of the live terminal message. -/
inductive Send where
  | plainMessage (text : String)
  | liveUpdate (content : String)
deriving DecidableEq, Repr

/-- How the command handling ended: the read loop finished with the
accumulated buffer (lines 371-383), or an exception was caught (lines
385-393). -/
inductive SessionOutcome where
  | completed (buffer : List String)
  | errored (msg : String)
deriving DecidableEq, Repr

/-- The messages sent after the read loop, from src/main.py lines 371-401:
when not connected both registered sinks get "Not connected to serial
device" (lines 394-401); on an exception both get "Error: ..." (lines
385-393); on completion with a non-empty buffer the plain sink gets the
joined lines in a code block and the live sink gets the last at most 20
lines (lines 371-383); on completion with an empty buffer the guard
`if temp_buffer` fails and nothing is sent. -/
def finalSends (connected plain live : Bool) (outcome : SessionOutcome) :
    List Send :=
  if connected = false then
    (if plain then [.plainMessage "Not connected to serial device"] else []) ++
    (if live then [.liveUpdate "Not connected to serial device"] else [])
  else
    match outcome with
    | .errored e =>
      (if plain then [.plainMessage ("Error: " ++ e)] else []) ++
      (if live then [.liveUpdate ("Error: " ++ e)] else [])
    | .completed buffer =>
      if buffer ≠ [] then
        (if plain then
          [.plainMessage ("```" ++ String.intercalate "\n" buffer ++ "```")]
        else []) ++
        (if live then
          [.liveUpdate (String.intercalate "\n" (lastN 20 buffer))]
        else [])
      else []

/-- Claim C9 counterexample: a connected session that reaches its timeout
with an empty accumulated buffer sends nothing at all — both a plain and a
live sink are registered, yet the final dispatch is empty. -/
theorem finalSends_counterexample :
    finalSends true true true (.completed []) = [] := by
  decide

/-- Claim C9 as amended: the not-connected and exception failure paths
render a short line to each registered sink, and a completed session with a
non-empty buffer delivers to each registered sink; but a session that times
out with an empty accumulated buffer sends no final message to any sink. -/
theorem finalSends_spec (plain live : Bool) (e : String) (buffer : List String) :
    (plain = true →
      Send.plainMessage "Not connected to serial device" ∈
        finalSends false plain live (.completed buffer) ∧
      Send.plainMessage ("Error: " ++ e) ∈ finalSends true plain live (.errored e)) ∧
    (live = true →
      Send.liveUpdate "Not connected to serial device" ∈
        finalSends false plain live (.completed buffer) ∧
      Send.liveUpdate ("Error: " ++ e) ∈ finalSends true plain live (.errored e)) ∧
    (buffer ≠ [] → plain = true →
      Send.plainMessage ("```" ++ String.intercalate "\n" buffer ++ "```") ∈
        finalSends true plain live (.completed buffer)) ∧
    (buffer ≠ [] → live = true →
      Send.liveUpdate (String.intercalate "\n" (lastN 20 buffer)) ∈
        finalSends true plain live (.completed buffer)) ∧
    finalSends true plain live (.completed []) = [] := by
  refine ⟨fun hp => ?_, fun hl => ?_, fun hb hp => ?_, fun hb hl => ?_, ?_⟩
  · constructor <;> simp [finalSends, hp]
  · constructor <;> simp [finalSends, hl]
  · simp [finalSends, hp, hb]
  · simp [finalSends, hl, hb]
  · simp [finalSends]

/-- Witness for the amended claim C9 with both sinks registered and the
buffer holding one line. -/
theorem finalSends_spec_witness :
    (Send.plainMessage "Not connected to serial device" ∈
        finalSends false true true (.completed ["OK"]) ∧
      Send.plainMessage ("Error: " ++ "device reports readiness to read but returned no data") ∈
        finalSends true true true
          (.errored "device reports readiness to read but returned no data")) ∧
    (Send.liveUpdate (String.intercalate "\n" (lastN 20 ["OK"])) ∈
      finalSends true true true (.completed ["OK"])) ∧
    finalSends true true true (.completed []) = [] :=
  ⟨(finalSends_spec true true
      "device reports readiness to read but returned no data" ["OK"]).1 rfl,
   (finalSends_spec true true
      "device reports readiness to read but returned no data" ["OK"]).2.2.2.1
      (by decide) rfl,
   (finalSends_spec true true
      "device reports readiness to read but returned no data" ["OK"]).2.2.2.2⟩

/-! ## Live-sink registration maps (src/main.py lines 61-70, 190-217,
248-253, 378-379) -/

/-- Dictionary key membership for integer-keyed dictionaries. -/
def keyMemN {α : Type} (l : List (Nat × α)) (k : Nat) : Bool :=
  l.any (fun p => p.1 == k)

/-- Dictionary deletion (del d[k]). -/
def delKeyN {α : Type} (l : List (Nat × α)) (k : Nat) : List (Nat × α) :=
  l.filter (fun p => p.1 != k)

/-- Dictionary assignment d[k] = v: overwrite an existing key in place,
append a fresh one. -/
def setKeyN {α : Type} (l : List (Nat × α)) (k : Nat) (v : α) : List (Nat × α) :=
  if l.any (fun p => p.1 == k) then
    l.map (fun p => if p.1 == k then (k, v) else p)
  else l ++ [(k, v)]

/-- The two live-terminal dictionaries of SerialCog (lines 65-66):
channel id to message id, and channel id to rolling buffer. -/
structure SinkState where
  liveTerminals : List (Nat × Nat)
  liveBuffers : List (Nat × List String)
deriving DecidableEq, Repr

/-- Both dictionaries start empty (lines 65-66). -/
def initSinkState : SinkState := { liveTerminals := [], liveBuffers := [] }

/-- SerialCog.toggle_live_terminal, lines 190-217: disabling deletes the
channel from both dictionaries, enabling inserts the new terminal message
id and an empty buffer into both. -/
def toggle_live_terminal (st : SinkState) (ch newMessageId : Nat) : SinkState :=
  if keyMemN st.liveTerminals ch then
    { liveTerminals := delKeyN st.liveTerminals ch,
      liveBuffers := delKeyN st.liveBuffers ch }
  else
    { liveTerminals := setKeyN st.liveTerminals ch newMessageId,
      liveBuffers := setKeyN st.liveBuffers ch [] }

/-- The self-healing branch of update_live_terminal_message on a NotFound
message, lines 248-253: delete the channel from both dictionaries when
registered. -/
def removeMissingTerminal (st : SinkState) (ch : Nat) : SinkState :=
  if keyMemN st.liveTerminals ch then
    { liveTerminals := delKeyN st.liveTerminals ch,
      liveBuffers := delKeyN st.liveBuffers ch }
  else st

/-- The final buffer write of lines 378-379, guarded by the live-terminal
membership test of line 378. -/
def storeFinalBuffer (st : SinkState) (ch : Nat) (buf : List String) : SinkState :=
  if keyMemN st.liveTerminals ch then
    { st with liveBuffers := setKeyN st.liveBuffers ch buf }
  else st

/-- The operations of the program that touch the two dictionaries. -/
inductive SinkOp where
  | toggle (ch newMessageId : Nat)
  | removeMissing (ch : Nat)
  | storeFinal (ch : Nat) (buf : List String)

/-- Apply one operation. -/
def applySinkOp (st : SinkState) : SinkOp → SinkState
  | .toggle ch m => toggle_live_terminal st ch m
  | .removeMissing ch => removeMissingTerminal st ch
  | .storeFinal ch buf => storeFinalBuffer st ch buf

/-- The states reachable from the initial empty dictionaries. -/
inductive ReachableSink : SinkState → Prop where
  | init : ReachableSink initSinkState
  | step (st : SinkState) (op : SinkOp) :
      ReachableSink st → ReachableSink (applySinkOp st op)

/-- The two dictionaries register exactly the same channels. -/
def sameKeySets (st : SinkState) : Prop :=
  ∀ ch : Nat, keyMemN st.liveTerminals ch = true ↔ keyMemN st.liveBuffers ch = true

theorem keyMemN_delKeyN {α : Type} (l : List (Nat × α)) (k ch : Nat) :
    keyMemN (delKeyN l k) ch = true ↔ (keyMemN l ch = true ∧ ch ≠ k) := by
  simp only [keyMemN, delKeyN, List.any_eq_true, List.mem_filter]
  constructor
  · rintro ⟨p, ⟨hp, hpk⟩, hpc⟩
    have hc : p.1 = ch := by simpa using hpc
    have hk : ¬ p.1 = k := by simpa using hpk
    exact ⟨⟨p, hp, hpc⟩, by rw [← hc]; exact hk⟩
  · rintro ⟨⟨p, hp, hpc⟩, hck⟩
    have hc : p.1 = ch := by simpa using hpc
    exact ⟨p, ⟨hp, by simp [hc, hck]⟩, hpc⟩

theorem keyMemN_setKeyN {α : Type} (l : List (Nat × α)) (k ch : Nat) (v : α) :
    keyMemN (setKeyN l k v) ch = true ↔ (keyMemN l ch = true ∨ ch = k) := by
  simp only [keyMemN, setKeyN]
  split
  · rename_i hk
    simp only [List.any_eq_true, List.mem_map]
    constructor
    · rintro ⟨q, ⟨p, hp, hq⟩, hqc⟩
      by_cases hpk : p.1 = k
      · rw [if_pos (by simpa using hpk)] at hq
        left
        exact ⟨p, hp, by subst hq; simp at hqc; simp [hpk, hqc]⟩
      · rw [if_neg (by simpa using hpk)] at hq
        subst hq
        exact Or.inl ⟨p, hp, hqc⟩
    · rintro (⟨p, hp, hpc⟩ | hck)
      · by_cases hpk : p.1 = k
        · refine ⟨(k, v), ⟨p, hp, by simp [hpk]⟩, ?_⟩
          have : p.1 = ch := by simpa using hpc
          simp [← this, hpk]
        · exact ⟨p, ⟨p, hp, by simp [hpk]⟩, hpc⟩
      · obtain ⟨p, hp, hpk⟩ := List.any_eq_true.mp hk
        refine ⟨(k, v), ⟨p, hp, by simp [hpk]⟩, by simp [hck]⟩
  · simp only [List.any_eq_true, List.mem_append, List.mem_singleton]
    constructor
    · rintro ⟨p, hp | hp, hpc⟩
      · exact Or.inl ⟨p, hp, hpc⟩
      · subst hp
        right
        have : k = ch := by simpa using hpc
        exact this.symm
    · rintro (⟨p, hp, hpc⟩ | hck)
      · exact ⟨p, Or.inl hp, hpc⟩
      · exact ⟨(k, v), Or.inr rfl, by simp [hck]⟩

/-- Claim C10: at every reachable state, the live-terminal map (channel to
message id) and the live-buffer map (channel to rolling buffer) have
exactly the same key set: enabling inserts into both, disabling deletes
from both, the self-healing path deletes from both, and the final buffer
write only touches channels already registered in both. -/
theorem reachableSink_sameKeySets (st : SinkState) (h : ReachableSink st) :
    sameKeySets st := by
  induction h with
  | init => intro ch; simp [initSinkState, keyMemN]
  | step st op hr ih =>
    cases op with
    | toggle ch m =>
      intro c
      show keyMemN (toggle_live_terminal st ch m).liveTerminals c = true ↔
        keyMemN (toggle_live_terminal st ch m).liveBuffers c = true
      unfold toggle_live_terminal
      split
      · simp only [keyMemN_delKeyN]
        rw [ih c]
      · simp only [keyMemN_setKeyN]
        rw [ih c]
    | removeMissing ch =>
      intro c
      show keyMemN (removeMissingTerminal st ch).liveTerminals c = true ↔
        keyMemN (removeMissingTerminal st ch).liveBuffers c = true
      unfold removeMissingTerminal
      split
      · simp only [keyMemN_delKeyN]
        rw [ih c]
      · exact ih c
    | storeFinal ch buf =>
      intro c
      show keyMemN (storeFinalBuffer st ch buf).liveTerminals c = true ↔
        keyMemN (storeFinalBuffer st ch buf).liveBuffers c = true
      unfold storeFinalBuffer
      split
      · rename_i hmem
        simp only [keyMemN_setKeyN]
        rw [ih c]
        constructor
        · exact fun hc => Or.inl hc
        · rintro (hc | hc)
          · exact hc
          · subst hc
            exact (ih c).mp hmem
      · exact ih c

/-- Witness for claim C10: the state after enabling a live terminal in
channel 1, storing a final buffer there and self-healing channel 2 has
matching key sets. -/
theorem reachableSink_sameKeySets_witness :
    sameKeySets (applySinkOp (applySinkOp (applySinkOp initSinkState
      (SinkOp.toggle 1 5)) (SinkOp.storeFinal 1 ["OK"]))
      (SinkOp.removeMissing 2)) :=
  reachableSink_sameKeySets _
    (ReachableSink.step _ _ (ReachableSink.step _ _
      (ReachableSink.step _ _ ReachableSink.init)))

/-! ## Concurrent command submissions (src/main.py lines 61-70, 260-401)

SerialCog.on_message is an event handler dispatched as its own task for
every inbound message; it acquires no lock and consults no busy flag (the
self.reading flag set at line 64 is never read or written again anywhere in
the program), so two concurrently submitted commands run two handler
instances whose execution interleaves at the await suspension points: the
settle sleep of line 299, the poll sleep of line 359, the live-update
awaits, and the final send of line 376.  Each handler is modelled as the
list of its transport-touching actions partitioned into the atomic blocks
between consecutive awaits; a cooperative scheduler produces any
order-preserving merge of the two block lists. -/

/-- A transport-touching action of one handler instance. -/
inductive TAction where
  | writeCommand (task : Nat)
  | readEcho (task : Nat)
  | readData (task : Nat)
  | emitTerminal (task : Nat)
deriving DecidableEq, Repr

/-- The atomic blocks of one on_message invocation on a plain-terminal
channel whose device answers "OK" at the first poll: the synchronous
write + flush + echo readline of lines 284-289 form one block (no await
between them); the settle sleep of line 299 suspends; the drain of the
available line (lines 323-355) is synchronous; each of the 22 idle polls
suspends at the sleep of line 359 and touches nothing; the early exit is
followed by the terminal send of line 376. -/
def onMessageBlocks (task : Nat) : List (List TAction) :=
  [[.writeCommand task, .readEcho task]] ++ [[.readData task]] ++
    List.replicate 22 [] ++ [[.emitTerminal task]]

/-- An order-preserving merge of two block lists: the schedules a
cooperative scheduler can produce, switching tasks only at block (await)
boundaries. -/
inductive BlockMerge {α : Type} : List α → List α → List α → Prop where
  | nil : BlockMerge [] [] []
  | left {x : α} {xs ys zs : List α} :
      BlockMerge xs ys zs → BlockMerge (x :: xs) ys (x :: zs)
  | right {y : α} {xs ys zs : List α} :
      BlockMerge xs ys zs → BlockMerge xs (y :: ys) (y :: zs)

theorem blockMerge_nil_right {α : Type} (xs : List α) : BlockMerge xs [] xs := by
  induction xs with
  | nil => exact BlockMerge.nil
  | cons x xs ih => exact BlockMerge.left ih

theorem blockMerge_ys_first {α : Type} (xs ys : List α) :
    BlockMerge xs ys (ys ++ xs) := by
  induction ys with
  | nil => exact blockMerge_nil_right xs
  | cons y ys ih => exact BlockMerge.right ih

/-- Action a occurs strictly before action b in the flattened schedule. -/
def occursBefore (l : List TAction) (a b : TAction) : Prop :=
  ∃ i j, i < j ∧ l.get? i = some a ∧ l.get? j = some b

/-- Claim C1: the code violates single-flight serialization.  There is a
valid cooperative schedule of two concurrently submitted commands in which
the first handler writes first (FIFO arrival) and the second handler
writes its command and reads its echo before the first handler emits its
terminal snapshot, because on_message takes no lock and checks no busy
flag.  Under the claim, the second write could only occur after the first
terminal emission. -/
theorem onMessage_interleaving_unserialized :
    ∃ m : List (List TAction),
      BlockMerge (onMessageBlocks 1) (onMessageBlocks 2) m ∧
      occursBefore m.flatten (.writeCommand 1) (.writeCommand 2) ∧
      occursBefore m.flatten (.writeCommand 2) (.emitTerminal 1) := by
  refine ⟨[TAction.writeCommand 1, TAction.readEcho 1] ::
      (onMessageBlocks 2 ++ ([[TAction.readData 1]] ++
        List.replicate 22 [] ++ [[TAction.emitTerminal 1]])), ?_, ?_, ?_⟩
  · exact BlockMerge.left (blockMerge_ys_first _ _)
  · exact ⟨0, 2, by norm_num, by rfl, by rfl⟩
  · exact ⟨2, 7, by norm_num, by rfl, by rfl⟩
